import Mathlib

/-!
Verification development for `pulp_win` (file
`extensions_admin/pulp_win/extension/admin/repo.py`).

The Python module is embedded shallowly:

* Python dicts become association lists (`Dict α`) with unique keys; the
  in-place mutation the source performs on its `kwargs` dict is made
  explicit by returning the updated dict alongside each result.
* The command `run` methods become pure functions producing a trace of
  `Event`s (messages rendered, remote API calls issued, builder
  invocations), and `Option` captures the exceptions (`KeyError`,
  `TypeError`, `IndexError`) that Python dict/list accesses can raise.
* `InvalidConfig` failures surface as `Except String`.

External collaborators (`pulp.client.arg_utils.convert_removed_options`,
the option keyword constants and the type-id / note-marker constants from
`pulp.common` and `pulp_win.common`) are not part of this repository's
sources; they are modelled from the specification and from the module's
own docstrings, and each such definition is marked `Modelled from the
spec:` in its doc comment.
-/

set_option autoImplicit false

namespace PulpWin

/-- Python values that flow through the CLI argument dicts: `None`,
booleans, strings, string-valued note mappings, and a value that the
external removal-conversion step rejects as structurally invalid. -/
inductive Value where
  | vNone : Value
  | vBool (b : Bool) : Value
  | vStr (s : String) : Value
  | vDict (d : List (String × String)) : Value
  | vInvalid (msg : String) : Value
deriving DecidableEq

/-- Python truthiness for the values of `Value` (`None`, `False`, `""`
and empty dicts are falsy). -/
def Value.isFalsy : Value → Bool
  | .vNone => true
  | .vBool b => !b
  | .vStr s => s == ""
  | .vDict d => d.isEmpty
  | .vInvalid _ => false

/-- A Python dict, embedded as an association list with unique keys. -/
abbrev Dict (α : Type) := List (String × α)

/-- `d[key]` lookup returning `none` when the key is absent. -/
def dictGet? {α : Type} : Dict α → String → Option α
  | [], _ => none
  | (k, v) :: rest, key => if key = k then some v else dictGet? rest key

/-- `key in d`. -/
def dictHas {α : Type} (d : Dict α) (key : String) : Bool :=
  (dictGet? d key).isSome

/-- `d[key] = val`: replace the value at an existing key in place,
otherwise append the new entry. -/
def dictSet {α : Type} : Dict α → String → α → Dict α
  | [], key, val => [(key, val)]
  | (k, v) :: rest, key, val =>
    if key = k then (k, val) :: rest else (k, v) :: dictSet rest key val

/-- Remove the entry at a key (the first occurrence; dicts built by the
embedding keep their keys unique). -/
def dictRemove {α : Type} : Dict α → String → Dict α
  | [], _ => []
  | (k, v) :: rest, key =>
    if key = k then rest else (k, v) :: dictRemove rest key

/-- The list of keys of a dict. -/
def dictKeys {α : Type} (d : Dict α) : List String :=
  d.map Prod.fst

/-- `d.pop(key)` (no default): `none` models the `KeyError` on an absent
key. -/
def popRequired (d : Dict Value) (key : String) : Option (Value × Dict Value) :=
  match dictGet? d key with
  | none => none
  | some v => some (v, dictRemove d key)

/-- `d.pop(key, None)`. -/
def popDefault (d : Dict Value) (key : String) : Value × Dict Value :=
  ((dictGet? d key).getD Value.vNone, dictRemove d key)

/-! ## Reserved constants

The concrete strings live in `pulp.common.constants`, `pulp_win.common`
and `pulp.client.commands.options`, outside this repository; the claims
only need them as opaque distinct tokens. -/

/-- Modelled from the spec: the reserved repository-note key identifying
a repository's content-type family (`pulp.common.constants.REPO_NOTE_TYPE_KEY`). -/
def REPO_NOTE_TYPE_KEY : String := "_repo-type"

/-- Modelled from the spec: this family's note marker value
(`pulp_win.common.constants.REPO_NOTE_WIN`). -/
def REPO_NOTE_WIN : String := "win-repo"

/-- Modelled from the spec: the fixed distributor id used for this family
(`pulp_win.common.ids.WIN_DISTRIBUTOR_ID`). -/
def WIN_DISTRIBUTOR_ID : String := "win_distributor"

/-- Modelled from the spec: the distributor type id for this family
(`pulp_win.common.ids.TYPE_ID_DISTRIBUTOR_WIN`). -/
def TYPE_ID_DISTRIBUTOR_WIN : String := "win_distributor"

/-- Modelled from the spec: the importer type id for this family
(`pulp_win.common.ids.TYPE_ID_IMPORTER_WIN`). -/
def TYPE_ID_IMPORTER_WIN : String := "win_importer"

/-- Modelled from the spec: keyword of the standard repo-id option
(`pulp.client.commands.options.OPTION_REPO_ID`), an opaque token. -/
def OPTION_REPO_ID_keyword : String := "repo-id"

/-- Modelled from the spec: keyword of the standard description option. -/
def OPTION_DESCRIPTION_keyword : String := "description"

/-- Modelled from the spec: keyword of the standard display-name option. -/
def OPTION_NAME_keyword : String := "display-name"

/-- Modelled from the spec: keyword of the standard notes option. -/
def OPTION_NOTES_keyword : String := "note"

/-- `IMPORTER_CONFIG_KEYS` of repo.py: the importer key table for this
family is empty. -/
def IMPORTER_CONFIG_KEYS : List (String × String) := []

/-- `WIN_DISTRIBUTOR_CONFIG_KEYS` of repo.py: pairs of
(plugin key, user-facing CLI key). -/
def WIN_DISTRIBUTOR_CONFIG_KEYS : List (String × String) :=
  [("relative_url", "relative_url"),
   ("http", "serve_http"),
   ("https", "serve_https"),
   ("checksum_type", "checksum_type"),
   ("skip", "skip")]

/-! ## The config builder (`_prep_config` and its two wrappers) -/

/-- `k.replace('-', '_')` applied to a CLI flag name (the pattern is a
single character, so the replacement is character-wise). -/
def pyNormalizeKey (k : String) : String :=
  String.mk (k.data.map (fun c => if c = '-' then '_' else c))

/-- One iteration of the hyphen-to-underscore loop of `_prep_config`
(lines 268-271): `v = kwargs.pop(k); kwargs[k.replace('-', '_')] = v`.
(The pop cannot raise here: the loop walks a snapshot of the dict's own
keys, and no iteration removes a key another iteration still has to
process.) -/
def normStep (d : Dict Value) (k : String) : Dict Value :=
  match dictGet? d k with
  | some v => dictSet (dictRemove d k) (pyNormalizeKey k) v
  | none => d

/-- The hyphen-to-underscore loop of `_prep_config` (lines 268-271),
iterating over the snapshot `kwargs.keys()`.  In the source this mutates
the caller's dict in place; here the updated dict is the result. -/
def normalizeKwargs (kwargs : Dict Value) : Dict Value :=
  (dictKeys kwargs).foldl normStep kwargs

/-- One step of the renaming loop of `_prep_config` (lines 278-279):
`plugin_config[plugin_key] = plugin_config.pop(cli_key, None)` for one
`(plugin_key, cli_key)` pair. -/
def renameStep (cfg : Dict Value) (pair : String × String) : Dict Value :=
  dictSet (dictRemove cfg pair.2) pair.1 ((dictGet? cfg pair.2).getD Value.vNone)

/-- Modelled from the spec: `pulp.client.arg_utils.convert_removed_options`
(line 282 of repo.py calls it; the function itself is an external
collaborator).  Per the spec (section 4.2 step 4, section 7) and the
`_prep_config` docstring, it strips entries whose value is `None`
(argument not specified), converts empty-string values into an explicit
`None` (the "remove this setting" marker), and raises `InvalidConfig`
when a value cannot be normalized; `Value.vInvalid` is the embedding of
such a value. -/
def convert_removed_options : Dict Value → Except String (Dict Value)
  | [] => .ok []
  | (k, v) :: rest =>
    match convert_removed_options rest with
    | .error e => .error e
    | .ok rest' =>
      match v with
      | .vNone => .ok rest'
      | .vStr s => if s = "" then .ok ((k, Value.vNone) :: rest') else .ok ((k, Value.vStr s) :: rest')
      | .vInvalid msg => .error msg
      | v => .ok ((k, v) :: rest')

/-- `_prep_config(kwargs, plugin_config_keys)` (lines 249-283).  Returns
the kwargs dict as left after the in-place hyphen normalization, paired
with the built plugin config; an `InvalidConfig` from the removal
conversion becomes `.error`.  (The two `LOG.debug` calls of the wrappers
have no bearing on the produced values and are not represented.) -/
def prep_config (kwargs : Dict Value) (plugin_config_keys : List (String × String)) :
    Except String (Dict Value × Dict Value) :=
  let kwargs' := normalizeKwargs kwargs
  let user_arg_keys := plugin_config_keys.map Prod.snd
  let base := kwargs'.filter (fun kv => user_arg_keys.contains kv.1)
  let pc := plugin_config_keys.foldl renameStep base
  match convert_removed_options pc with
  | .error e => .error e
  | .ok pc' => .ok (kwargs', pc')

/-- `args_to_importer_config(kwargs)` (lines 217-230). -/
def args_to_importer_config (kwargs : Dict Value) : Except String (Dict Value × Dict Value) :=
  prep_config kwargs IMPORTER_CONFIG_KEYS

/-- `args_to_win_distributor_config(kwargs)` (lines 233-246). -/
def args_to_win_distributor_config (kwargs : Dict Value) : Except String (Dict Value × Dict Value) :=
  prep_config kwargs WIN_DISTRIBUTOR_CONFIG_KEYS

/-! ## The create and update commands -/

/-- The distributor descriptor packaged for the create call (lines 93-96). -/
structure DistributorDescriptor where
  distributor_type : String
  distributor_config : Dict Value
  auto_publish : Bool
  distributor_id : String
deriving DecidableEq

/-- Observable actions of a command `run`: builder invocations, console
messages, and remote API calls with the arguments they receive. -/
inductive Event where
  | buildImporter : Event
  | buildDistributor : Event
  | failureMsg (msg : String) : Event
  | successMsg (repoId : Value) : Event
  | postponedMsg (reasons : List String) : Event
  | remoteCreate (repoId displayName description : Value)
      (notes : List (String × String)) (importerTypeId : String)
      (importerConfig : Dict Value)
      (distributors : List DistributorDescriptor) : Event
  | remoteUpdate (repoId displayName description notes : Value)
      (importerConfig : Dict Value)
      (distributorConfigs : List (String × Dict Value)) : Event
deriving DecidableEq

/-- `notes = kwargs.pop(...) or {}` followed by the item assignment into
`notes`: a falsy value yields the empty mapping, a dict yields itself,
and any other (truthy, non-dict) value would make the subsequent
`notes[key] = ...` raise, embedded as `none`. -/
def notesBase (v : Value) : Option (List (String × String)) :=
  if v.isFalsy then some []
  else
    match v with
    | .vDict d => some d
    | _ => none

/-- The argument gathering of `MsiRepoCreateCommand.run` (lines 61-64):
pops repo-id (required), description and display-name (defaulting to
`None`), and the notes option (required, then `or {}`).  Returns
(repo id, display name, description, notes base mapping, remaining
kwargs); `none` embeds the `KeyError`/`TypeError` paths. -/
def popCreateArgs (kwargs : Dict Value) :
    Option (Value × Value × Value × List (String × String) × Dict Value) :=
  match popRequired kwargs OPTION_REPO_ID_keyword with
  | none => none
  | some (repoId, k1) =>
    let (description, k2) := popDefault k1 OPTION_DESCRIPTION_keyword
    let (displayName, k3) := popDefault k2 OPTION_NAME_keyword
    match popRequired k3 OPTION_NOTES_keyword with
    | none => none
    | some (notesV, k4) =>
      match notesBase notesV with
      | none => none
      | some nb => some (repoId, displayName, description, nb, k4)

/-- The create-only defaulting applied to the built distributor config
(lines 76-90): default `relative_url` to the repository id when absent,
default to https-enabled/http-disabled when neither flag is present, and
force any still-missing flag to `False`. -/
def applyCreateDefaults (repoId : Value) (cfg : Dict Value) : Dict Value :=
  let cfg1 := if dictHas cfg "relative_url" then cfg else dictSet cfg "relative_url" repoId
  let cfg2 :=
    if !dictHas cfg1 "http" && !dictHas cfg1 "https" then
      dictSet (dictSet cfg1 "https" (Value.vBool true)) "http" (Value.vBool false)
    else cfg1
  ["http", "https"].foldl
    (fun c k => if dictHas c k then c else dictSet c k (Value.vBool false)) cfg2

/-- `MsiRepoCreateCommand.run` (lines 58-105), with the two key tables as
parameters (the command itself instantiates them with the module's
constants, see `createRun`).  The produced event list records the builder
invocations, the failure message on `InvalidConfig` (after which the
method returns without any remote call), or the remote
`create_and_configure` call followed by the success message. -/
def createRunWith (importerKeys distributorKeys : List (String × String))
    (kwargs : Dict Value) : Option (List Event) :=
  match popCreateArgs kwargs with
  | none => none
  | some (repoId, displayName, description, notes0, rest) =>
    let notes := dictSet notes0 REPO_NOTE_TYPE_KEY REPO_NOTE_WIN
    match prep_config rest importerKeys with
    | .error e => some [Event.buildImporter, Event.failureMsg e]
    | .ok (rest1, importerConfig) =>
      match prep_config rest1 distributorKeys with
      | .error e => some [Event.buildImporter, Event.buildDistributor, Event.failureMsg e]
      | .ok (_, dcfg0) =>
        let dcfg := applyCreateDefaults repoId dcfg0
        some [Event.buildImporter, Event.buildDistributor,
          Event.remoteCreate repoId displayName description notes
            TYPE_ID_IMPORTER_WIN importerConfig
            [⟨TYPE_ID_DISTRIBUTOR_WIN, dcfg, true, WIN_DISTRIBUTOR_ID⟩],
          Event.successMsg repoId]

/-- `MsiRepoCreateCommand.run` with the module's actual key tables. -/
def createRun (kwargs : Dict Value) : Option (List Event) :=
  createRunWith IMPORTER_CONFIG_KEYS WIN_DISTRIBUTOR_CONFIG_KEYS kwargs

/-- The argument gathering of `MsiRepoUpdateCommand.run` (lines 123-126):
unlike create, the notes option is popped with a `None` default and kept
as-is. -/
def popUpdateArgs (kwargs : Dict Value) :
    Option (Value × Value × Value × Value × Dict Value) :=
  match popRequired kwargs OPTION_REPO_ID_keyword with
  | none => none
  | some (repoId, k1) =>
    let (description, k2) := popDefault k1 OPTION_DESCRIPTION_keyword
    let (displayName, k3) := popDefault k2 OPTION_NAME_keyword
    let (notes, k4) := popDefault k3 OPTION_NOTES_keyword
    some (repoId, displayName, description, notes, k4)

/-- `MsiRepoUpdateCommand.run` (lines 120-145) up to and including the
remote `update_repo_and_plugins` call, with the key tables as
parameters.  The two builder calls sit in separate try blocks: an
importer-config failure renders the failure message and returns before
the distributor build is attempted. -/
def updateRunWith (importerKeys distributorKeys : List (String × String))
    (kwargs : Dict Value) : Option (List Event) :=
  match popUpdateArgs kwargs with
  | none => none
  | some (repoId, displayName, description, notes, rest) =>
    match prep_config rest importerKeys with
    | .error e => some [Event.buildImporter, Event.failureMsg e]
    | .ok (rest1, importerConfig) =>
      match prep_config rest1 distributorKeys with
      | .error e => some [Event.buildImporter, Event.buildDistributor, Event.failureMsg e]
      | .ok (_, dcfg) =>
        some [Event.buildImporter, Event.buildDistributor,
          Event.remoteUpdate repoId displayName description notes importerConfig
            [(TYPE_ID_DISTRIBUTOR_WIN, dcfg)]]

/-- `MsiRepoUpdateCommand.run` with the module's actual key tables. -/
def updateRun (kwargs : Dict Value) : Option (List Event) :=
  updateRunWith IMPORTER_CONFIG_KEYS WIN_DISTRIBUTOR_CONFIG_KEYS kwargs

/-- The response of the remote update call (external collaborator). -/
structure UpdateResponse where
  is_async : Bool
  reasons : List String

/-- The message rendering after the remote update call (lines 147-155),
a function of the externally produced response. -/
def renderUpdateResponse (repoId : Value) (resp : UpdateResponse) : List Event :=
  if resp.is_async then [Event.postponedMsg resp.reasons]
  else [Event.successMsg repoId]

/-- True when the trace contains a remote API call. -/
def hasRemoteCall : List Event → Bool
  | [] => false
  | Event.remoteCreate _ _ _ _ _ _ _ :: _ => true
  | Event.remoteUpdate _ _ _ _ _ _ :: _ => true
  | _ :: rest => hasRemoteCall rest

/-- The notes mapping passed to the remote create call, if the trace
contains one. -/
def Event.createNotes? : Event → Option (List (String × String))
  | .remoteCreate _ _ _ nts _ _ _ => some nts
  | _ => none

/-- The importer config passed to the remote create call, if any. -/
def Event.createImporterConfig? : Event → Option (Dict Value)
  | .remoteCreate _ _ _ _ _ icfg _ => some icfg
  | _ => none

/-- The distributor descriptors passed to the remote create call, if any. -/
def Event.createDistributors? : Event → Option (List DistributorDescriptor)
  | .remoteCreate _ _ _ _ _ _ ds => some ds
  | _ => none

/-- The notes argument passed to the remote update call, if any. -/
def Event.updateNotes? : Event → Option Value
  | .remoteUpdate _ _ _ nts _ _ => some nts
  | _ => none

/-- The (importer config, distributor configs) passed to the remote
update call, if any. -/
def Event.updateConfigs? : Event → Option (Dict Value × List (String × Dict Value))
  | .remoteUpdate _ _ _ _ icfg dcfgs => some (icfg, dcfgs)
  | _ => none

/-- First value extracted from a run trace by an event projection. -/
def sentData {α : Type} (proj : Event → Option α) (r : Option (List Event)) : Option α :=
  match r with
  | none => none
  | some evs => evs.findSome? proj

/-! ## The list command -/

/-- One distributor entry of a repository record; the classifier only
reads its `id` field, the rest is opaque display data. -/
structure DistRec where
  id : String
  extra : List (String × String)
deriving DecidableEq

/-- One importer entry of a repository record (present only under a
detailed fetch); the code reads its `config` field. -/
structure ImporterRec where
  config : List (String × String)
deriving DecidableEq

/-- An externally owned repository record as the listing returns it:
`id` and `notes` are always present (data-model invariant), while the
`distributors` and `importers` fields may be absent. -/
structure RepoRecord where
  id : String
  notes : List (String × String)
  distributors : Option (List DistRec)
  importers : Option (List ImporterRec)
deriving DecidableEq

/-- The classification test of `get_repositories` (line 175):
the notes mapping has the reserved type key and it maps to this family's
marker.  (`get_other_repositories` keeps exactly the records where
`notes.get(key, None) != marker`, the negation of this test.) -/
def noteTypeIsWin (r : RepoRecord) : Bool :=
  match dictGet? r.notes REPO_NOTE_TYPE_KEY with
  | some v => v == REPO_NOTE_WIN
  | none => false

/-- The distributor pruning of `get_repositories` (lines 180-182): when a
record has a `distributors` field, keep only the entries whose id is the
fixed WIN distributor id. -/
def pruneDistributors (r : RepoRecord) : RepoRecord :=
  match r.distributors with
  | none => r
  | some ds => { r with distributors := some (ds.filter (fun d => d.id == WIN_DISTRIBUTOR_ID)) }

/-- The guard of the importer loop (lines 185-191): records without an
`importers` field are skipped; a record with one triggers
`r['importers'][0]`, which raises `IndexError` on an empty sequence (the
loop body otherwise only binds an unused local). -/
def importersAccessOk (r : RepoRecord) : Bool :=
  match r.importers with
  | none => true
  | some [] => false
  | some (_ :: _) => true

/-- `MsiRepoListCommand.get_repositories` (lines 169-193) as a function
of the fetched listing: filter by the notes marker, prune distributors,
and run the importer loop; `none` embeds the `IndexError` raised when a
retained record carries an empty importers sequence. -/
def get_repositories (allRepos : List RepoRecord) : Option (List RepoRecord) :=
  let msi := (allRepos.filter noteTypeIsWin).map pruneDistributors
  if msi.all importersAccessOk then some msi else none

/-- `MsiRepoListCommand.get_other_repositories` (lines 195-204) as a
function of the fetched listing. -/
def get_other_repositories (allRepos : List RepoRecord) : List RepoRecord :=
  allRepos.filter (fun r => !(noteTypeIsWin r))

/-- The per-invocation state of `MsiRepoListCommand`: the lazy cache of
the full listing (`self.all_repos_cache`). -/
structure ListCmdState where
  all_repos_cache : Option (List RepoRecord)
deriving DecidableEq

/-- `MsiRepoListCommand.__init__` (line 167): a freshly constructed
command starts with an empty cache. -/
def initListCmdState : ListCmdState := ⟨none⟩

/-- `MsiRepoListCommand._all_repos` (lines 206-212): on the first access
the remote listing (`server`, the response body of
`context.server.repo.repositories`) is fetched and cached; afterwards the
cached snapshot is returned.  The third component counts the remote
round-trips the call performs. -/
def all_repos (server : List RepoRecord) (s : ListCmdState) :
    List RepoRecord × ListCmdState × Nat :=
  match s.all_repos_cache with
  | some cached => (cached, s, 0)
  | none => (server, ⟨some server⟩, 1)

/-- The two classification entry points of the list command. -/
inductive ListOp where
  | getRepos : ListOp
  | getOthers : ListOp
deriving DecidableEq

/-- Run one classification call against the shared cache. -/
def runListOp (server : List RepoRecord) (s : ListCmdState) (op : ListOp) :
    Option (List RepoRecord) × ListCmdState × Nat :=
  let (allR, s', n) := all_repos server s
  match op with
  | .getRepos => (get_repositories allR, s', n)
  | .getOthers => (some (get_other_repositories allR), s', n)

/-- Run a sequence of classification calls within one command
invocation, collecting the results and the total number of remote
round-trips. -/
def runListOps (server : List RepoRecord) (s : ListCmdState) :
    List ListOp → List (Option (List RepoRecord)) × ListCmdState × Nat
  | [] => ([], s, 0)
  | op :: ops =>
    let (res, s', n) := runListOp server s op
    let (results, s'', m) := runListOps server s' ops
    (res :: results, s'', n + m)

/-- The result a single classification call computes from a given
snapshot (used to state that every call in an invocation is answered
from one snapshot). -/
def opResult (server : List RepoRecord) : ListOp → Option (List RepoRecord)
  | .getRepos => get_repositories server
  | .getOthers => some (get_other_repositories server)

/-! ## Specification vocabulary

Functions used only to state properties of the embedded code. -/

/-- What the removal conversion leaves of one entry's value: `None`
entries disappear, empty strings become an explicit `None`, other
(convertible) values survive unchanged. -/
def removedLookup : Value → Option Value
  | .vNone => none
  | .vStr s => if s = "" then some Value.vNone else some (Value.vStr s)
  | .vInvalid _ => none
  | v => some v

/-- The value the user supplied for a CLI key in the (normalized)
argument dict, with `None` standing for "not supplied". -/
def suppliedValue (kw : Dict Value) (ck : String) : Value :=
  (dictGet? kw ck).getD Value.vNone

/-- The per-key characterization of the distributor config built by
`_prep_config` from normalized arguments `kw`: each plugin key holds the
removal-converted value of its CLI key, and no other key occurs. -/
def winConfigSpec (kw : Dict Value) (q : String) : Option Value :=
  if q = "relative_url" then removedLookup (suppliedValue kw "relative_url")
  else if q = "http" then removedLookup (suppliedValue kw "serve_http")
  else if q = "https" then removedLookup (suppliedValue kw "serve_https")
  else if q = "checksum_type" then removedLookup (suppliedValue kw "checksum_type")
  else if q = "skip" then removedLookup (suppliedValue kw "skip")
  else none

/-- The projection step of `_prep_config` for the WIN distributor table
(line 275): the normalized arguments restricted to the table's CLI keys. -/
def winBase (kw : Dict Value) : Dict Value :=
  (normalizeKwargs kw).filter
    (fun kv => (WIN_DISTRIBUTOR_CONFIG_KEYS.map Prod.snd).contains kv.1)

/-- The renaming fold of `_prep_config` for the WIN distributor table
(lines 278-279), before the removal conversion. -/
def winPC (kw : Dict Value) : Dict Value :=
  WIN_DISTRIBUTOR_CONFIG_KEYS.foldl renameStep (winBase kw)

/-- Per-key characterization of `winPC`: before the removal conversion,
every plugin key is present and holds the value supplied for its CLI key
(`None` when unsupplied), and no other key occurs. -/
def winPCSpec (N : Dict Value) (q : String) : Option Value :=
  if q = "relative_url" then some (suppliedValue N "relative_url")
  else if q = "http" then some (suppliedValue N "serve_http")
  else if q = "https" then some (suppliedValue N "serve_https")
  else if q = "checksum_type" then some (suppliedValue N "checksum_type")
  else if q = "skip" then some (suppliedValue N "skip")
  else none

/-! ## Concrete inputs used by counterexamples and witnesses -/

/-- Create arguments with no distributor flags at all. -/
def kwargsNoFlags : Dict Value :=
  [("repo-id", Value.vStr "r1"), ("note", Value.vNone)]

/-- Create arguments supplying only `serve_http = True`. -/
def kwargsHttpOnly : Dict Value :=
  [("repo-id", Value.vStr "r1"), ("note", Value.vNone), ("serve_http", Value.vBool true)]

/-- Create arguments whose notes mapping already sets a conflicting value
at the reserved type key. -/
def kwargsConflictNote : Dict Value :=
  [("repo-id", Value.vStr "r1"), ("note", Value.vDict [("_repo-type", "other")])]

/-- Update arguments with no notes option and one distributor flag. -/
def kwargsUpdateNoNote : Dict Value :=
  [("repo-id", Value.vStr "r1"), ("serve_http", Value.vBool true)]

/-- Update arguments carrying a value the removal conversion rejects. -/
def kwargsUpdateBad : Dict Value :=
  [("repo-id", Value.vStr "r"), ("skip", Value.vInvalid "boom")]

/-- Create arguments carrying a value (for a one-pair importer table)
that the removal conversion rejects. -/
def kwargsCreateBad : Dict Value :=
  [("repo-id", Value.vStr "r"), ("note", Value.vNone), ("a", Value.vInvalid "bad")]

/-- A one-pair importer key table (the mechanism must support non-empty
tables; this family's own table is empty). -/
def importerKeysA : List (String × String) := [("a", "a")]

/-- A matching repository record whose distributors list holds one
unrelated entry. -/
def repoRecWin : RepoRecord :=
  ⟨"r1", [("_repo-type", "win-repo")], some [⟨"other-dist", []⟩], none⟩

/-- `repoRecWin` after pruning: the unrelated distributor is gone. -/
def repoRecWinPruned : RepoRecord :=
  ⟨"r1", [("_repo-type", "win-repo")], some [], none⟩

/-- A matching record with both an unrelated and the WIN distributor. -/
def repoRecTwoDists : RepoRecord :=
  ⟨"r2", [("_repo-type", "win-repo")],
   some [⟨"other-dist", []⟩, ⟨"win_distributor", []⟩], none⟩

/-- `repoRecTwoDists` after pruning: only the WIN distributor remains. -/
def repoRecTwoDistsPruned : RepoRecord :=
  ⟨"r2", [("_repo-type", "win-repo")], some [⟨"win_distributor", []⟩], none⟩

/-- A non-matching repository record. -/
def repoRecOther : RepoRecord :=
  ⟨"r3", [("_repo-type", "rpm-repo")], none, none⟩

/-! ## Dict lemmas -/

theorem dictGet?_dictSet {α : Type} (d : Dict α) (key : String) (val : α) (q : String) :
    dictGet? (dictSet d key val) q = if q = key then some val else dictGet? d q := by
  induction d with
  | nil => simp [dictSet, dictGet?]
  | cons kv rest ih =>
    obtain ⟨k, v⟩ := kv
    by_cases h1 : key = k
    · subst h1
      by_cases h2 : q = key <;> simp [dictSet, dictGet?, h2]
    · by_cases h2 : q = k
      · subst h2
        have : ¬ q = key := fun h => h1 h.symm
        simp [dictSet, dictGet?, h1, this]
      · simp [dictSet, dictGet?, h1, h2, ih]

theorem nodup_keys_cons {α : Type} {k : String} {v : α} {rest : Dict α}
    (h : (dictKeys ((k, v) :: rest)).Nodup) :
    ¬ k ∈ dictKeys rest ∧ (dictKeys rest).Nodup := by
  have h' : (k :: dictKeys rest).Nodup := h
  exact ⟨(List.nodup_cons.mp h').1, (List.nodup_cons.mp h').2⟩

theorem mem_dictKeys_iff {α : Type} (d : Dict α) (q : String) :
    q ∈ dictKeys d ↔ (dictGet? d q).isSome := by
  induction d with
  | nil => simp [dictKeys, dictGet?]
  | cons kv rest ih =>
    obtain ⟨k, v⟩ := kv
    show q ∈ k :: dictKeys rest ↔ _
    rw [List.mem_cons]
    by_cases h : q = k <;> simp [dictGet?, h, ih]

theorem dictGet?_eq_none_of_not_mem {α : Type} (d : Dict α) (q : String)
    (h : ¬ q ∈ dictKeys d) : dictGet? d q = none := by
  rcases hg : dictGet? d q with _ | v
  · rfl
  · exact absurd ((mem_dictKeys_iff d q).2 (by simp [hg])) h

theorem dictKeys_dictRemove_sublist {α : Type} (d : Dict α) (key : String) :
    (dictKeys (dictRemove d key)).Sublist (dictKeys d) := by
  induction d with
  | nil => simp [dictRemove, dictKeys]
  | cons kv rest ih =>
    obtain ⟨k, v⟩ := kv
    by_cases h : key = k
    · rw [show dictRemove ((k, v) :: rest) key = rest by simp [dictRemove, h]]
      exact List.sublist_cons_self k (dictKeys rest)
    · rw [show dictRemove ((k, v) :: rest) key = (k, v) :: dictRemove rest key by
        simp [dictRemove, h]]
      exact ih.cons₂ k

theorem nodup_dictKeys_dictRemove {α : Type} (d : Dict α) (key : String)
    (h : (dictKeys d).Nodup) : (dictKeys (dictRemove d key)).Nodup :=
  (dictKeys_dictRemove_sublist d key).nodup h

theorem dictGet?_dictRemove {α : Type} (d : Dict α) (key q : String)
    (h : (dictKeys d).Nodup) :
    dictGet? (dictRemove d key) q = if q = key then none else dictGet? d q := by
  induction d with
  | nil => simp [dictRemove, dictGet?]
  | cons kv rest ih =>
    obtain ⟨k, v⟩ := kv
    obtain ⟨hk, hrest⟩ := nodup_keys_cons h
    by_cases h1 : key = k
    · subst h1
      by_cases h2 : q = key
      · subst h2
        simp [dictRemove, dictGet?_eq_none_of_not_mem rest q hk]
      · have h3 : ¬ key = q := fun h => h2 (Eq.symm h)
        simp [dictRemove, dictGet?, h2, h3]
    · by_cases h2 : q = k
      · subst h2
        have : ¬ q = key := fun h => h1 h.symm
        simp [dictRemove, dictGet?, h1, this]
      · simp [dictRemove, dictGet?, h1, h2, ih hrest]

theorem mem_dictKeys_dictSet {α : Type} (d : Dict α) (key : String) (val : α) (q : String) :
    q ∈ dictKeys (dictSet d key val) ↔ q = key ∨ q ∈ dictKeys d := by
  rw [mem_dictKeys_iff, dictGet?_dictSet, mem_dictKeys_iff]
  by_cases h : q = key
  · simp [h]
  · simp [h]

theorem nodup_dictKeys_dictSet {α : Type} (d : Dict α) (key : String) (val : α)
    (h : (dictKeys d).Nodup) : (dictKeys (dictSet d key val)).Nodup := by
  induction d with
  | nil => simp [dictSet, dictKeys]
  | cons kv rest ih =>
    obtain ⟨k, v⟩ := kv
    obtain ⟨hk, hrest⟩ := nodup_keys_cons h
    by_cases h1 : key = k
    · subst h1
      rw [show dictSet ((key, v) :: rest) key val = (key, val) :: rest by simp [dictSet]]
      have h' : (key :: dictKeys rest).Nodup := List.nodup_cons.mpr ⟨hk, hrest⟩
      exact h'
    · have hmem : ¬ k ∈ dictKeys (dictSet rest key val) := by
        rw [mem_dictKeys_dictSet]
        push_neg
        exact ⟨fun h => h1 (Eq.symm h), hk⟩
      rw [show dictSet ((k, v) :: rest) key val = (k, v) :: dictSet rest key val by
        simp [dictSet, h1]]
      have h' : (k :: dictKeys (dictSet rest key val)).Nodup :=
        List.nodup_cons.mpr ⟨hmem, ih hrest⟩
      exact h'

theorem dictKeys_filter_sublist {α : Type} (p : String × α → Bool) (d : Dict α) :
    (dictKeys (d.filter p)).Sublist (dictKeys d) := by
  induction d with
  | nil => simp [dictKeys]
  | cons kv rest ih =>
    cases h : p kv
    · rw [List.filter_cons, h]
      show (dictKeys (rest.filter p)).Sublist (dictKeys (kv :: rest))
      exact ih.trans (List.sublist_cons_self kv.1 (dictKeys rest))
    · rw [List.filter_cons, h]
      show (kv.1 :: dictKeys (rest.filter p)).Sublist (kv.1 :: dictKeys rest)
      exact ih.cons₂ kv.1

theorem dictGet?_filter_keys {α : Type} (ks : List String) (d : Dict α) (q : String) :
    dictGet? (d.filter (fun kv => ks.contains kv.1)) q =
      if ks.contains q then dictGet? d q else none := by
  induction d with
  | nil => cases h : ks.contains q <;> simp [dictGet?, h]
  | cons kv rest ih =>
    obtain ⟨k, v⟩ := kv
    rw [List.filter_cons]
    by_cases h1 : q = k
    · subst h1
      cases h2 : ks.contains q
      · simp only [h2, Bool.false_eq_true, if_false, ih, h2]
      · simp only [h2, if_true, dictGet?, if_pos rfl]
    · cases h2 : ks.contains k
      · rw [if_neg (by simp [h2]), ih,
          show dictGet? ((k, v) :: rest) q = dictGet? rest q by simp [dictGet?, h1]]
      · rw [if_pos (by simp [h2]),
          show dictGet? ((k, v) :: List.filter (fun kv => ks.contains kv.1) rest) q =
            dictGet? (List.filter (fun kv => ks.contains kv.1) rest) q by
              simp [dictGet?, h1],
          ih,
          show dictGet? ((k, v) :: rest) q = dictGet? rest q by simp [dictGet?, h1]]

/-! ## Builder lemmas -/

theorem dictGet?_renameStep (cfg : Dict Value) (pk ck q : String)
    (h : (dictKeys cfg).Nodup) :
    dictGet? (renameStep cfg (pk, ck)) q =
      if q = pk then some ((dictGet? cfg ck).getD Value.vNone)
      else if q = ck then none
      else dictGet? cfg q := by
  unfold renameStep
  rw [dictGet?_dictSet]
  by_cases h1 : q = pk
  · simp [h1]
  · rw [if_neg h1, if_neg h1, dictGet?_dictRemove cfg ck q h]

theorem nodup_dictKeys_renameStep (cfg : Dict Value) (pair : String × String)
    (h : (dictKeys cfg).Nodup) : (dictKeys (renameStep cfg pair)).Nodup :=
  nodup_dictKeys_dictSet _ _ _ (nodup_dictKeys_dictRemove _ _ h)

theorem nodup_dictKeys_normStep (d : Dict Value) (k : String)
    (h : (dictKeys d).Nodup) : (dictKeys (normStep d k)).Nodup := by
  unfold normStep
  cases hg : dictGet? d k
  · exact h
  · exact nodup_dictKeys_dictSet _ _ _ (nodup_dictKeys_dictRemove _ _ h)

theorem nodup_dictKeys_foldl_normStep (ks : List String) (d : Dict Value)
    (h : (dictKeys d).Nodup) : (dictKeys (ks.foldl normStep d)).Nodup := by
  induction ks generalizing d with
  | nil => exact h
  | cons k ks ih => exact ih (normStep d k) (nodup_dictKeys_normStep d k h)

theorem nodup_dictKeys_normalizeKwargs (kwargs : Dict Value)
    (h : (dictKeys kwargs).Nodup) : (dictKeys (normalizeKwargs kwargs)).Nodup :=
  nodup_dictKeys_foldl_normStep (dictKeys kwargs) kwargs h

theorem convert_removed_options_lookup (d : Dict Value) (d' : Dict Value)
    (h : (dictKeys d).Nodup) (hc : convert_removed_options d = .ok d') (q : String) :
    dictGet? d' q = (dictGet? d q).bind removedLookup := by
  induction d generalizing d' q with
  | nil =>
    simp only [convert_removed_options] at hc
    cases hc
    simp [dictGet?]
  | cons kv rest ih =>
    obtain ⟨k, v⟩ := kv
    obtain ⟨hk, hrest⟩ := nodup_keys_cons h
    cases hrec : convert_removed_options rest with
    | error e =>
      rw [convert_removed_options, hrec] at hc
      exact Except.noConfusion hc
    | ok rest' =>
      have ihr : ∀ r, dictGet? rest' r = (dictGet? rest r).bind removedLookup :=
        fun r => ih rest' hrest hrec r
      have hnone : dictGet? rest' k = none := by
        rw [ihr k, dictGet?_eq_none_of_not_mem rest k hk]
        rfl
      cases v with
      | vNone =>
        simp only [convert_removed_options, hrec] at hc
        cases hc
        by_cases hq : q = k
        · subst hq
          simp [dictGet?, removedLookup, hnone]
        · simp [dictGet?, hq, ihr]
      | vBool b =>
        simp only [convert_removed_options, hrec] at hc
        cases hc
        by_cases hq : q = k
        · subst hq
          simp [dictGet?, removedLookup]
        · simp [dictGet?, hq, ihr]
      | vStr s =>
        simp only [convert_removed_options, hrec] at hc
        by_cases hs : s = ""
        · rw [if_pos hs] at hc
          cases hc
          by_cases hq : q = k
          · subst hq
            simp [dictGet?, removedLookup, hs]
          · simp [dictGet?, hq, ihr]
        · rw [if_neg hs] at hc
          cases hc
          by_cases hq : q = k
          · subst hq
            simp [dictGet?, removedLookup, hs]
          · simp [dictGet?, hq, ihr]
      | vDict nd =>
        simp only [convert_removed_options, hrec] at hc
        cases hc
        by_cases hq : q = k
        · subst hq
          simp [dictGet?, removedLookup]
        · simp [dictGet?, hq, ihr]
      | vInvalid msg =>
        simp only [convert_removed_options, hrec] at hc
        exact Except.noConfusion hc

theorem nodup_dictKeys_winBase (kw : Dict Value) (h : (dictKeys kw).Nodup) :
    (dictKeys (winBase kw)).Nodup :=
  (dictKeys_filter_sublist _ _).nodup (nodup_dictKeys_normalizeKwargs kw h)

theorem dictGet?_winPC (kw : Dict Value) (h : (dictKeys kw).Nodup) (q : String) :
    dictGet? (winPC kw) q = winPCSpec (normalizeKwargs kw) q := by
  have hb : (dictKeys (winBase kw)).Nodup := nodup_dictKeys_winBase kw h
  have hb1 : (dictKeys (renameStep (winBase kw) ("relative_url", "relative_url"))).Nodup :=
    nodup_dictKeys_renameStep _ _ hb
  have hb2 : (dictKeys (renameStep (renameStep (winBase kw) ("relative_url", "relative_url"))
      ("http", "serve_http"))).Nodup :=
    nodup_dictKeys_renameStep _ _ hb1
  have hb3 : (dictKeys (renameStep (renameStep (renameStep (winBase kw)
      ("relative_url", "relative_url")) ("http", "serve_http"))
      ("https", "serve_https"))).Nodup :=
    nodup_dictKeys_renameStep _ _ hb2
  have hb4 : (dictKeys (renameStep (renameStep (renameStep (renameStep (winBase kw)
      ("relative_url", "relative_url")) ("http", "serve_http"))
      ("https", "serve_https")) ("checksum_type", "checksum_type"))).Nodup :=
    nodup_dictKeys_renameStep _ _ hb3
  have E0 : ∀ r, dictGet? (winBase kw) r =
      if (WIN_DISTRIBUTOR_CONFIG_KEYS.map Prod.snd).contains r
      then dictGet? (normalizeKwargs kw) r else none :=
    fun r => dictGet?_filter_keys _ _ r
  have E1 := fun r => dictGet?_renameStep (winBase kw) "relative_url" "relative_url" r hb
  have E2 := fun r => dictGet?_renameStep
    (renameStep (winBase kw) ("relative_url", "relative_url")) "http" "serve_http" r hb1
  have E3 := fun r => dictGet?_renameStep
    (renameStep (renameStep (winBase kw) ("relative_url", "relative_url"))
      ("http", "serve_http")) "https" "serve_https" r hb2
  have E4 := fun r => dictGet?_renameStep
    (renameStep (renameStep (renameStep (winBase kw) ("relative_url", "relative_url"))
      ("http", "serve_http")) ("https", "serve_https")) "checksum_type" "checksum_type" r hb3
  have E5 := fun r => dictGet?_renameStep
    (renameStep (renameStep (renameStep (renameStep (winBase kw)
      ("relative_url", "relative_url")) ("http", "serve_http"))
      ("https", "serve_https")) ("checksum_type", "checksum_type")) "skip" "skip" r hb4
  rw [show winPC kw = renameStep (renameStep (renameStep (renameStep (renameStep (winBase kw)
    ("relative_url", "relative_url")) ("http", "serve_http")) ("https", "serve_https"))
    ("checksum_type", "checksum_type")) ("skip", "skip") from rfl]
  simp only [E5, E4, E3, E2, E1, E0]
  by_cases q1 : q = "relative_url"
  · subst q1
    simp [winPCSpec, suppliedValue, WIN_DISTRIBUTOR_CONFIG_KEYS]
  · by_cases q2 : q = "http"
    · subst q2
      simp [winPCSpec, suppliedValue, WIN_DISTRIBUTOR_CONFIG_KEYS]
    · by_cases q3 : q = "https"
      · subst q3
        simp [winPCSpec, suppliedValue, WIN_DISTRIBUTOR_CONFIG_KEYS]
      · by_cases q4 : q = "checksum_type"
        · subst q4
          simp [winPCSpec, suppliedValue, WIN_DISTRIBUTOR_CONFIG_KEYS]
        · by_cases q5 : q = "skip"
          · subst q5
            simp [winPCSpec, suppliedValue, WIN_DISTRIBUTOR_CONFIG_KEYS]
          · by_cases q6 : q = "serve_http"
            · subst q6
              simp [winPCSpec, suppliedValue, WIN_DISTRIBUTOR_CONFIG_KEYS]
            · by_cases q7 : q = "serve_https"
              · subst q7
                simp [winPCSpec, suppliedValue, WIN_DISTRIBUTOR_CONFIG_KEYS]
              · simp [winPCSpec, suppliedValue, WIN_DISTRIBUTOR_CONFIG_KEYS,
                  q1, q2, q3, q4, q5, q6, q7]

theorem prep_config_win_eq (kwargs : Dict Value) :
    prep_config kwargs WIN_DISTRIBUTOR_CONFIG_KEYS =
      match convert_removed_options (winPC kwargs) with
      | .error e => .error e
      | .ok pc' => .ok (normalizeKwargs kwargs, pc') := rfl

theorem prep_config_win_lookup (kwargs N C : Dict Value)
    (h : (dictKeys kwargs).Nodup)
    (hp : prep_config kwargs WIN_DISTRIBUTOR_CONFIG_KEYS = Except.ok (N, C)) :
    N = normalizeKwargs kwargs ∧ ∀ q, dictGet? C q = winConfigSpec N q := by
  rw [prep_config_win_eq] at hp
  cases hc : convert_removed_options (winPC kwargs) with
  | error e =>
    rw [hc] at hp
    exact Except.noConfusion hp
  | ok pc' =>
    rw [hc] at hp
    simp only [Except.ok.injEq, Prod.mk.injEq] at hp
    obtain ⟨hN, hC⟩ := hp
    subst hC
    refine ⟨hN.symm, fun q => ?_⟩
    have hpcNodup : (dictKeys (winPC kwargs)).Nodup := by
      have : ∀ (t : List (String × String)) (d : Dict Value),
          (dictKeys d).Nodup → (dictKeys (t.foldl renameStep d)).Nodup := by
        intro t
        induction t with
        | nil => intro d hd; exact hd
        | cons p t ih => intro d hd; exact ih _ (nodup_dictKeys_renameStep d p hd)
      exact this _ _ (nodup_dictKeys_winBase kwargs h)
    rw [convert_removed_options_lookup (winPC kwargs) _ hpcNodup hc q,
      dictGet?_winPC kwargs h q, ← hN]
    by_cases q1 : q = "relative_url"
    · subst q1; simp [winPCSpec, winConfigSpec]
    · by_cases q2 : q = "http"
      · subst q2; simp [winPCSpec, winConfigSpec, q1]
      · by_cases q3 : q = "https"
        · subst q3; simp [winPCSpec, winConfigSpec, q1, q2]
        · by_cases q4 : q = "checksum_type"
          · subst q4; simp [winPCSpec, winConfigSpec, q1, q2, q3]
          · by_cases q5 : q = "skip"
            · subst q5; simp [winPCSpec, winConfigSpec, q1, q2, q3, q4]
            · simp [winPCSpec, winConfigSpec, q1, q2, q3, q4, q5]

theorem prep_config_nil (kwargs : Dict Value) :
    prep_config kwargs [] = Except.ok (normalizeKwargs kwargs, []) := by
  have hfil : ∀ d : Dict Value,
      d.filter (fun kv => ((([] : List (String × String))).map Prod.snd).contains kv.1) = [] := by
    intro d
    induction d with
    | nil => rfl
    | cons kv rest ih => simp [List.filter_cons, ih]
  unfold prep_config
  simp [hfil, convert_removed_options]

theorem args_to_importer_config_eq (kwargs : Dict Value) :
    args_to_importer_config kwargs = Except.ok (normalizeKwargs kwargs, []) :=
  prep_config_nil kwargs

/-! ## Lemmas about the create defaulting -/

theorem dictHas_dictSet {α : Type} (d : Dict α) (key : String) (val : α) (q : String) :
    dictHas (dictSet d key val) q = if q = key then true else dictHas d q := by
  unfold dictHas
  rw [dictGet?_dictSet]
  by_cases h : q = key <;> simp [h]

theorem dictHas_eq_false_iff {α : Type} (d : Dict α) (q : String) :
    dictHas d q = false ↔ dictGet? d q = none := by
  unfold dictHas
  cases dictGet? d q <;> simp

theorem acd_flags_present (repoId : Value) (cfg : Dict Value) :
    dictHas (applyCreateDefaults repoId cfg) "http" = true ∧
    dictHas (applyCreateDefaults repoId cfg) "https" = true := by
  unfold applyCreateDefaults
  by_cases hru : dictHas cfg "relative_url" <;>
    by_cases hh : dictHas cfg "http" <;>
      by_cases hs : dictHas cfg "https" <;>
        simp [hru, hh, hs, dictHas_dictSet]

theorem acd_relative_url (repoId : Value) (cfg : Dict Value)
    (h : dictGet? cfg "relative_url" = none) :
    dictGet? (applyCreateDefaults repoId cfg) "relative_url" = some repoId := by
  have hru : dictHas cfg "relative_url" = false := (dictHas_eq_false_iff cfg _).mpr h
  unfold applyCreateDefaults
  by_cases hh : dictHas cfg "http" <;>
    by_cases hs : dictHas cfg "https" <;>
      simp [hru, hh, hs, dictHas_dictSet, dictGet?_dictSet]

theorem acd_default_flags (repoId : Value) (cfg : Dict Value)
    (hh : dictGet? cfg "http" = none) (hs : dictGet? cfg "https" = none) :
    dictGet? (applyCreateDefaults repoId cfg) "https" = some (Value.vBool true) ∧
    dictGet? (applyCreateDefaults repoId cfg) "http" = some (Value.vBool false) := by
  have hh' : dictHas cfg "http" = false := (dictHas_eq_false_iff cfg _).mpr hh
  have hs' : dictHas cfg "https" = false := (dictHas_eq_false_iff cfg _).mpr hs
  unfold applyCreateDefaults
  by_cases hru : dictHas cfg "relative_url" <;>
    simp [hru, hh', hs', dictHas_dictSet, dictGet?_dictSet]

theorem acd_http_only (repoId : Value) (cfg : Dict Value)
    (hh : dictGet? cfg "http" = some (Value.vBool true))
    (hs : dictGet? cfg "https" = none) :
    dictGet? (applyCreateDefaults repoId cfg) "http" = some (Value.vBool true) ∧
    dictGet? (applyCreateDefaults repoId cfg) "https" = some (Value.vBool false) := by
  have hh' : dictHas cfg "http" = true := by unfold dictHas; simp [hh]
  have hs' : dictHas cfg "https" = false := (dictHas_eq_false_iff cfg _).mpr hs
  unfold applyCreateDefaults
  by_cases hru : dictHas cfg "relative_url" <;>
    simp [hru, hh', hs', hh, dictHas_dictSet, dictGet?_dictSet]

/-! ## Claim theorems -/

/-- Claim C10: the importer key table of this family is empty, so
`args_to_importer_config` returns the empty configuration on every input
and never fails with `InvalidConfig`; consequently every create run that
reaches the remote call sends an empty importer config. -/
theorem spec_C10 :
    (∀ kwargs, args_to_importer_config kwargs =
        Except.ok (normalizeKwargs kwargs, [])) ∧
    (∀ kwargs icfg,
      sentData Event.createImporterConfig? (createRun kwargs) = some icfg →
      icfg = []) := by
  refine ⟨args_to_importer_config_eq, ?_⟩
  intro kwargs icfg hs
  unfold createRun createRunWith at hs
  cases hpop : popCreateArgs kwargs with
  | none => rw [hpop] at hs; simp [sentData] at hs
  | some t =>
    obtain ⟨rid, dn, de, nt, rest⟩ := t
    simp only [hpop] at hs
    have h1 : prep_config rest IMPORTER_CONFIG_KEYS = Except.ok (normalizeKwargs rest, []) :=
      prep_config_nil rest
    simp only [h1] at hs
    cases h2 : prep_config (normalizeKwargs rest) WIN_DISTRIBUTOR_CONFIG_KEYS with
    | error e =>
      simp only [h2] at hs
      simp [sentData, Event.createImporterConfig?] at hs
    | ok p =>
      obtain ⟨rest2, dcfg0⟩ := p
      simp only [h2] at hs
      simp [sentData, Event.createImporterConfig?] at hs
      exact hs

/-- Claim C2: on create, after the distributor config is built, a missing
`relative_url` is defaulted to the repository id, both serving flags are
always present in the sent config, neither flag supplied defaults to
https enabled and http disabled, and a still-missing flag is forced to
false; in particular `createRun` on arguments with no flags sends
https=true/http=false, and with only `serve_http=True` sends
http=true/https=false. -/
theorem spec_C2 :
    (∀ repoId cfg,
      (dictGet? cfg "relative_url" = none →
        dictGet? (applyCreateDefaults repoId cfg) "relative_url" = some repoId) ∧
      (dictHas (applyCreateDefaults repoId cfg) "http" = true ∧
        dictHas (applyCreateDefaults repoId cfg) "https" = true) ∧
      (dictGet? cfg "http" = none → dictGet? cfg "https" = none →
        dictGet? (applyCreateDefaults repoId cfg) "https" = some (Value.vBool true) ∧
        dictGet? (applyCreateDefaults repoId cfg) "http" = some (Value.vBool false)) ∧
      (dictGet? cfg "http" = some (Value.vBool true) → dictGet? cfg "https" = none →
        dictGet? (applyCreateDefaults repoId cfg) "http" = some (Value.vBool true) ∧
        dictGet? (applyCreateDefaults repoId cfg) "https" = some (Value.vBool false))) ∧
    ((sentData Event.createDistributors? (createRun kwargsNoFlags)).map
        (List.map DistributorDescriptor.distributor_config) =
      some [[("relative_url", Value.vStr "r1"), ("https", Value.vBool true),
             ("http", Value.vBool false)]]) ∧
    ((sentData Event.createDistributors? (createRun kwargsHttpOnly)).map
        (List.map DistributorDescriptor.distributor_config) =
      some [[("http", Value.vBool true), ("relative_url", Value.vStr "r1"),
             ("https", Value.vBool false)]]) := by
  refine ⟨fun repoId cfg => ⟨acd_relative_url repoId cfg, acd_flags_present repoId cfg,
    acd_default_flags repoId cfg, acd_http_only repoId cfg⟩, ?_, ?_⟩
  · rfl
  · rfl

/-- Witness for C2 at a concrete config. -/
theorem spec_C2_witness :
    dictGet? (applyCreateDefaults (Value.vStr "w") []) "relative_url" =
      some (Value.vStr "w") ∧
    dictGet? (applyCreateDefaults (Value.vStr "w") []) "https" = some (Value.vBool true) ∧
    dictGet? (applyCreateDefaults (Value.vStr "w") [("http", Value.vBool true)]) "https" =
      some (Value.vBool false) :=
  ⟨(spec_C2.1 (Value.vStr "w") []).1 rfl,
   ((spec_C2.1 (Value.vStr "w") []).2.2.1 rfl rfl).1,
   ((spec_C2.1 (Value.vStr "w") [("http", Value.vBool true)]).2.2.2 rfl rfl).2⟩

/-- Claim C1 counterexample: on the empty argument dict the built
distributor config is empty, so it does not contain the plugin key
`relative_url` (nor any other plugin key) with an explicit null value. -/
theorem spec_C1_counterexample :
    args_to_win_distributor_config [] = Except.ok ([], []) ∧
    ("relative_url", "relative_url") ∈ WIN_DISTRIBUTOR_CONFIG_KEYS ∧
    ¬ "relative_url" ∈ dictKeys ([] : Dict Value) := by
  refine ⟨rfl, by decide, by simp [dictKeys]⟩

/-- Claim C1 (amended): the built config contains no key outside the
mapping's plugin_key set; but a plugin key whose CLI key the user did not
supply (absent or `None`) is omitted from the result rather than present
with null, and an empty-string value is what yields an explicit null (the
removal marker).  The importer table being empty, the importer config is
always the empty dict. -/
theorem spec_C1 : ∀ kwargs N C, (dictKeys kwargs).Nodup →
    prep_config kwargs WIN_DISTRIBUTOR_CONFIG_KEYS = Except.ok (N, C) →
    (∀ q, q ∈ dictKeys C → q ∈ WIN_DISTRIBUTOR_CONFIG_KEYS.map Prod.fst) ∧
    (∀ pk ck, (pk, ck) ∈ WIN_DISTRIBUTOR_CONFIG_KEYS →
      ((dictGet? N ck = none ∨ dictGet? N ck = some Value.vNone) →
        ¬ pk ∈ dictKeys C) ∧
      (dictGet? N ck = some (Value.vStr "") →
        dictGet? C pk = some Value.vNone)) ∧
    (∀ N2 C2, args_to_importer_config kwargs = Except.ok (N2, C2) → C2 = []) := by
  intro kwargs N C h hp
  obtain ⟨hN, hspec⟩ := prep_config_win_lookup kwargs N C h hp
  refine ⟨?_, ?_, ?_⟩
  · intro q hq
    rw [mem_dictKeys_iff, hspec q] at hq
    unfold winConfigSpec at hq
    by_cases q1 : q = "relative_url"
    · simp [WIN_DISTRIBUTOR_CONFIG_KEYS, q1]
    · by_cases q2 : q = "http"
      · simp [WIN_DISTRIBUTOR_CONFIG_KEYS, q2]
      · by_cases q3 : q = "https"
        · simp [WIN_DISTRIBUTOR_CONFIG_KEYS, q3]
        · by_cases q4 : q = "checksum_type"
          · simp [WIN_DISTRIBUTOR_CONFIG_KEYS, q4]
          · by_cases q5 : q = "skip"
            · simp [WIN_DISTRIBUTOR_CONFIG_KEYS, q5]
            · rw [if_neg q1, if_neg q2, if_neg q3, if_neg q4, if_neg q5] at hq
              exact absurd hq (by simp)
  · intro pk ck hmem
    have hcases : (pk = "relative_url" ∧ ck = "relative_url") ∨
        (pk = "http" ∧ ck = "serve_http") ∨ (pk = "https" ∧ ck = "serve_https") ∨
        (pk = "checksum_type" ∧ ck = "checksum_type") ∨ (pk = "skip" ∧ ck = "skip") := by
      simpa [WIN_DISTRIBUTOR_CONFIG_KEYS, Prod.ext_iff] using hmem
    constructor
    · intro hup
      rw [mem_dictKeys_iff, hspec pk]
      have hv : suppliedValue N ck = Value.vNone := by
        unfold suppliedValue
        rcases hup with h0 | h0 <;> simp [h0]
      rcases hcases with ⟨h1, h2⟩ | ⟨h1, h2⟩ | ⟨h1, h2⟩ | ⟨h1, h2⟩ | ⟨h1, h2⟩ <;>
        · subst h1
          subst h2
          simp [winConfigSpec, hv, removedLookup]
    · intro hes
      rw [hspec pk]
      have hv : suppliedValue N ck = Value.vStr "" := by
        unfold suppliedValue
        simp [hes]
      rcases hcases with ⟨h1, h2⟩ | ⟨h1, h2⟩ | ⟨h1, h2⟩ | ⟨h1, h2⟩ | ⟨h1, h2⟩ <;>
        · subst h1
          subst h2
          simp [winConfigSpec, hv, removedLookup]
  · intro N2 C2 h2
    rw [args_to_importer_config_eq] at h2
    simp only [Except.ok.injEq, Prod.mk.injEq] at h2
    exact h2.2.symm

theorem dictGet?_dictRemove_ne {α : Type} (d : Dict α) (key q : String) (h : ¬ q = key) :
    dictGet? (dictRemove d key) q = dictGet? d q := by
  induction d with
  | nil => rfl
  | cons kv rest ih =>
    obtain ⟨k, v⟩ := kv
    by_cases h1 : key = k
    · subst h1
      have h2 : ¬ q = key := h
      simp [dictRemove, dictGet?, h2]
    · by_cases h2 : q = k <;> simp [dictRemove, dictGet?, h1, h2, ih]

/-- Witness for C10: the create run on flagless arguments reaches the
remote call with the empty importer config. -/
theorem spec_C10_witness :
    sentData Event.createImporterConfig? (createRun kwargsNoFlags) = some ([] : Dict Value) ∧
    (([] : Dict Value) = []) :=
  ⟨rfl, spec_C10.2 kwargsNoFlags [] rfl⟩

/-- Witness for C1 at a concrete input: an unsupplied CLI key is absent
from the built config, and an empty-string value survives as an explicit
null. -/
theorem spec_C1_witness :
    ¬ "relative_url" ∈ dictKeys ([("checksum_type", Value.vNone)] : Dict Value) ∧
    dictGet? ([("checksum_type", Value.vNone)] : Dict Value) "checksum_type" =
      some Value.vNone := by
  have h := spec_C1 [("checksum_type", Value.vStr "")] [("checksum_type", Value.vStr "")]
    [("checksum_type", Value.vNone)] (by decide) (by rfl)
  exact ⟨(h.2.1 "relative_url" "relative_url" (by decide)).1 (Or.inl (by decide)),
    (h.2.1 "checksum_type" "checksum_type" (by decide)).2 (by decide)⟩

/-- Claim C5 (code bug): the docstrings of `args_to_importer_config` and
`args_to_win_distributor_config` promise "The supplied dict will not be
modified", but the hyphen-normalization loop of `_prep_config` pops and
re-inserts every key of the caller's dict: on a hyphenated key the
caller's dict ends up changed. -/
theorem spec_C5_bug :
    args_to_win_distributor_config [("relative-url", Value.vStr "x")] =
      Except.ok ([("relative_url", Value.vStr "x")], [("relative_url", Value.vStr "x")]) ∧
    ([("relative-url", Value.vStr "x")] : Dict Value) ≠ [("relative_url", Value.vStr "x")] :=
  ⟨rfl, by decide⟩

/-- Claim C3: whenever a config build fails with `InvalidConfig`, the
create and update runs render the failure message and stop without any
remote call; in update, an importer-build failure means the distributor
build is never attempted (no `buildDistributor` event). -/
theorem spec_C3 :
    (∀ ik dk kwargs rid dn de nt rest e,
      popCreateArgs kwargs = some (rid, dn, de, nt, rest) →
      prep_config rest ik = Except.error e →
      createRunWith ik dk kwargs = some [Event.buildImporter, Event.failureMsg e]) ∧
    (∀ ik dk kwargs rid dn de nt rest rest1 icfg e,
      popCreateArgs kwargs = some (rid, dn, de, nt, rest) →
      prep_config rest ik = Except.ok (rest1, icfg) →
      prep_config rest1 dk = Except.error e →
      createRunWith ik dk kwargs =
        some [Event.buildImporter, Event.buildDistributor, Event.failureMsg e]) ∧
    (∀ ik dk kwargs rid dn de nts rest e,
      popUpdateArgs kwargs = some (rid, dn, de, nts, rest) →
      prep_config rest ik = Except.error e →
      updateRunWith ik dk kwargs = some [Event.buildImporter, Event.failureMsg e]) ∧
    (∀ ik dk kwargs rid dn de nts rest rest1 icfg e,
      popUpdateArgs kwargs = some (rid, dn, de, nts, rest) →
      prep_config rest ik = Except.ok (rest1, icfg) →
      prep_config rest1 dk = Except.error e →
      updateRunWith ik dk kwargs =
        some [Event.buildImporter, Event.buildDistributor, Event.failureMsg e]) ∧
    (∀ e, hasRemoteCall [Event.buildImporter, Event.failureMsg e] = false ∧
      hasRemoteCall [Event.buildImporter, Event.buildDistributor, Event.failureMsg e] = false ∧
      ¬ Event.buildDistributor ∈ [Event.buildImporter, Event.failureMsg e]) := by
  refine ⟨?_, ?_, ?_, ?_, ?_⟩
  · intro ik dk kwargs rid dn de nt rest e hpop herr
    unfold createRunWith
    simp only [hpop, herr]
  · intro ik dk kwargs rid dn de nt rest rest1 icfg e hpop hok herr
    unfold createRunWith
    simp only [hpop, hok, herr]
  · intro ik dk kwargs rid dn de nts rest e hpop herr
    unfold updateRunWith
    simp only [hpop, herr]
  · intro ik dk kwargs rid dn de nts rest rest1 icfg e hpop hok herr
    unfold updateRunWith
    simp only [hpop, hok, herr]
  · intro e
    refine ⟨rfl, rfl, ?_⟩
    intro hmem
    simp [hasRemoteCall] at hmem

/-- Witness for C3: a create run with a one-pair importer table and an
update run of the command itself, each hitting an `InvalidConfig`. -/
theorem spec_C3_witness :
    createRunWith importerKeysA WIN_DISTRIBUTOR_CONFIG_KEYS kwargsCreateBad =
      some [Event.buildImporter, Event.failureMsg "bad"] ∧
    updateRun kwargsUpdateBad =
      some [Event.buildImporter, Event.buildDistributor, Event.failureMsg "boom"] := by
  refine ⟨spec_C3.1 importerKeysA WIN_DISTRIBUTOR_CONFIG_KEYS kwargsCreateBad
    (Value.vStr "r") Value.vNone Value.vNone [] [("a", Value.vInvalid "bad")] "bad"
    rfl rfl, ?_⟩
  exact spec_C3.2.2.2.1 IMPORTER_CONFIG_KEYS WIN_DISTRIBUTOR_CONFIG_KEYS kwargsUpdateBad
    (Value.vStr "r") Value.vNone Value.vNone Value.vNone [("skip", Value.vInvalid "boom")]
    [("skip", Value.vInvalid "boom")] [] "boom" rfl rfl rfl

theorem runListOps_cached (server : List RepoRecord) (ops : List ListOp) :
    runListOps server ⟨some server⟩ ops = (ops.map (opResult server), ⟨some server⟩, 0) := by
  induction ops with
  | nil => rfl
  | cons op ops ih =>
    cases op <;> simp [runListOps, runListOp, all_repos, opResult, ih]

/-- Claim C9: within one list-command invocation the remote listing is
fetched at most once; the first classification call populates the cache,
every later call answers from the same snapshot, and a fresh command
starts with an empty cache. -/
theorem spec_C9 : ∀ (server : List RepoRecord) (ops : List ListOp),
    runListOps server initListCmdState ops =
      (ops.map (opResult server),
       ⟨if ops.isEmpty then none else some server⟩,
       if ops.isEmpty then 0 else 1) ∧
    initListCmdState.all_repos_cache = none := by
  intro server ops
  refine ⟨?_, rfl⟩
  cases ops with
  | nil => rfl
  | cons op ops =>
    cases op <;>
      simp [runListOps, runListOp, all_repos, initListCmdState, opResult, runListOps_cached]

theorem get_repositories_eq (allRepos msi : List RepoRecord)
    (h : get_repositories allRepos = some msi) :
    msi = (allRepos.filter noteTypeIsWin).map pruneDistributors := by
  unfold get_repositories at h
  by_cases hc : ((allRepos.filter noteTypeIsWin).map pruneDistributors).all importersAccessOk
  · rw [if_pos hc] at h
    injection h with h'
    exact h'.symm
  · rw [if_neg hc] at h
    exact Option.noConfusion h

theorem pruneDistributors_notes (r : RepoRecord) :
    (pruneDistributors r).notes = r.notes := by
  unfold pruneDistributors
  cases hd : r.distributors <;> simp

theorem noteTypeIsWin_prune (r : RepoRecord) :
    noteTypeIsWin (pruneDistributors r) = noteTypeIsWin r := by
  unfold noteTypeIsWin
  rw [pruneDistributors_notes]

theorem length_filter_partition {α : Type} (p : α → Bool) (l : List α) :
    (l.filter p).length + (l.filter (fun a => !(p a))).length = l.length := by
  induction l with
  | nil => rfl
  | cons a l ih => cases h : p a <;> simp [List.filter_cons, h] <;> omega

/-- Claim C4 counterexample: a matching record whose distributors list
holds only an unrelated entry is returned by `get_repositories` in pruned
form, so the original record appears in neither result and the union of
the two results is not the full listing. -/
theorem spec_C4_counterexample :
    get_repositories [repoRecWin] = some [repoRecWinPruned] ∧
    get_other_repositories [repoRecWin] = [] ∧
    repoRecWinPruned ≠ repoRecWin ∧
    ¬ repoRecWin ∈ [repoRecWinPruned] := by
  refine ⟨rfl, rfl, by decide, by decide⟩

/-- Claim C4 (amended): membership is decided solely by the notes type
marker and the two results are disjoint; but `get_repositories` returns
the matching records with their distributors pruned (and only when no
matching record carries an empty importers sequence), so the union equals
the full listing only up to that pruning. -/
theorem spec_C4 : ∀ (listing msi : List RepoRecord),
    get_repositories listing = some msi →
    msi = (listing.filter noteTypeIsWin).map pruneDistributors ∧
    get_other_repositories listing = listing.filter (fun r => !(noteTypeIsWin r)) ∧
    (∀ r, r ∈ listing → (noteTypeIsWin r = true → pruneDistributors r ∈ msi) ∧
      (noteTypeIsWin r = false → r ∈ get_other_repositories listing)) ∧
    (∀ r, r ∈ msi → ¬ r ∈ get_other_repositories listing) ∧
    msi.length + (get_other_repositories listing).length = listing.length ∧
    (∀ r s : RepoRecord, r.notes = s.notes → noteTypeIsWin r = noteTypeIsWin s) := by
  intro listing msi h
  have hmsi := get_repositories_eq listing msi h
  subst hmsi
  refine ⟨rfl, rfl, ?_, ?_, ?_, ?_⟩
  · intro r hr
    constructor
    · intro hwin
      exact List.mem_map_of_mem pruneDistributors (List.mem_filter.mpr ⟨hr, hwin⟩)
    · intro hnot
      unfold get_other_repositories
      exact List.mem_filter.mpr ⟨hr, by simp [hnot]⟩
  · intro r hr hother
    unfold get_other_repositories at hother
    obtain ⟨r0, hr0mem, hr0⟩ := List.mem_map.mp hr
    have hwin0 : noteTypeIsWin r0 = true := (List.mem_filter.mp hr0mem).2
    have hwin : noteTypeIsWin r = true := by
      rw [← hr0, noteTypeIsWin_prune]
      exact hwin0
    have hnot : (!(noteTypeIsWin r)) = true := (List.mem_filter.mp hother).2
    rw [hwin] at hnot
    exact Bool.noConfusion hnot
  · rw [List.length_map]
    exact length_filter_partition noteTypeIsWin listing
  · intro r s hnotes
    unfold noteTypeIsWin
    rw [hnotes]

/-- Witness for C4 on a two-record listing. -/
theorem spec_C4_witness :
    ([repoRecTwoDistsPruned].length +
      (get_other_repositories [repoRecTwoDists, repoRecOther]).length =
      ([repoRecTwoDists, repoRecOther] : List RepoRecord).length) ∧
    ¬ repoRecTwoDistsPruned ∈ get_other_repositories [repoRecTwoDists, repoRecOther] := by
  have h := spec_C4 [repoRecTwoDists, repoRecOther] [repoRecTwoDistsPruned] rfl
  exact ⟨h.2.2.2.2.1, h.2.2.2.1 repoRecTwoDistsPruned (by decide)⟩

/-- Claim C6: every record retained by `get_repositories` is a listing
record with its distributors (when present) pruned to exactly the entries
carrying the fixed WIN distributor id; records without a distributors
field keep none. -/
theorem spec_C6 : ∀ (listing msi : List RepoRecord),
    get_repositories listing = some msi →
    (∀ r, r ∈ msi → ∃ r0, r0 ∈ listing ∧ noteTypeIsWin r0 = true ∧
      r = pruneDistributors r0) ∧
    (∀ (r0 : RepoRecord) (ds : List DistRec), r0.distributors = some ds →
      (pruneDistributors r0).distributors =
        some (ds.filter (fun d => d.id == WIN_DISTRIBUTOR_ID))) ∧
    (∀ r0 : RepoRecord, r0.distributors = none →
      (pruneDistributors r0).distributors = none) := by
  intro listing msi h
  have hmsi := get_repositories_eq listing msi h
  subst hmsi
  refine ⟨?_, ?_, ?_⟩
  · intro r hr
    obtain ⟨r0, hr0mem, hr0⟩ := List.mem_map.mp hr
    exact ⟨r0, (List.mem_filter.mp hr0mem).1, (List.mem_filter.mp hr0mem).2, hr0.symm⟩
  · intro r0 ds hds
    unfold pruneDistributors
    rw [hds]
  · intro r0 hds
    unfold pruneDistributors
    rw [hds]
    exact hds

/-- Witness for C6: the two-distributor record is pruned to the single
WIN entry. -/
theorem spec_C6_witness :
    (pruneDistributors repoRecTwoDists).distributors =
      some [⟨"win_distributor", []⟩] := by
  have h := spec_C6 [repoRecTwoDists] [repoRecTwoDistsPruned] rfl
  simpa using h.2.1 repoRecTwoDists [⟨"other-dist", []⟩, ⟨"win_distributor", []⟩] rfl

theorem prep_config_importer_keys (kwargs : Dict Value) :
    prep_config kwargs IMPORTER_CONFIG_KEYS = Except.ok (normalizeKwargs kwargs, []) :=
  prep_config_nil kwargs

theorem popRequired_eq (d : Dict Value) (key : String) (v : Value) (d' : Dict Value)
    (h : popRequired d key = some (v, d')) :
    dictGet? d key = some v ∧ d' = dictRemove d key := by
  unfold popRequired at h
  cases hg : dictGet? d key with
  | none => rw [hg] at h; exact Option.noConfusion h
  | some w =>
    rw [hg] at h
    simp only [Option.some.injEq, Prod.mk.injEq] at h
    exact ⟨congrArg some h.1, h.2.symm⟩

theorem popCreateArgs_notes (kwargs : Dict Value) (rid dn de : Value)
    (nt : List (String × String)) (rest : Dict Value)
    (hpop : popCreateArgs kwargs = some (rid, dn, de, nt, rest)) :
    ∃ v, dictGet? kwargs OPTION_NOTES_keyword = some v ∧ notesBase v = some nt := by
  unfold popCreateArgs at hpop
  cases h1 : popRequired kwargs OPTION_REPO_ID_keyword with
  | none => rw [h1] at hpop; exact Option.noConfusion hpop
  | some p1 =>
    obtain ⟨rid1, k1⟩ := p1
    obtain ⟨hg1, hk1⟩ := popRequired_eq kwargs _ rid1 k1 h1
    simp only [h1, popDefault] at hpop
    cases h2 : popRequired (dictRemove (dictRemove k1 OPTION_DESCRIPTION_keyword)
        OPTION_NAME_keyword) OPTION_NOTES_keyword with
    | none => rw [h2] at hpop; exact Option.noConfusion hpop
    | some p2 =>
      obtain ⟨nv, k4⟩ := p2
      obtain ⟨hg2, hk4⟩ := popRequired_eq _ _ nv k4 h2
      simp only [h2] at hpop
      cases h3 : notesBase nv with
      | none =>
        simp only [h3] at hpop
        exact Option.noConfusion hpop
      | some nb =>
        simp only [h3] at hpop
        simp only [Option.some.injEq, Prod.mk.injEq] at hpop
        refine ⟨nv, ?_, ?_⟩
        · rw [← hg2]
          subst hk1
          rw [dictGet?_dictRemove_ne _ _ _ (by decide),
              dictGet?_dictRemove_ne _ _ _ (by decide),
              dictGet?_dictRemove_ne _ _ _ (by decide)]
        · rw [h3, hpop.2.2.2.1]

/-- Claim C8: every create run that reaches the remote call sends a notes
mapping in which the reserved type key carries this family's marker; the
base mapping is the caller's notes dict with that entry overwritten, and
an absent or falsy notes argument yields the empty base mapping. -/
theorem spec_C8 : ∀ (kwargs : Dict Value) (rid dn de : Value)
    (nt : List (String × String)) (rest : Dict Value),
    popCreateArgs kwargs = some (rid, dn, de, nt, rest) →
    (∀ ns, sentData Event.createNotes? (createRun kwargs) = some ns →
      ns = dictSet nt REPO_NOTE_TYPE_KEY REPO_NOTE_WIN ∧
      dictGet? ns REPO_NOTE_TYPE_KEY = some (REPO_NOTE_WIN)) ∧
    (∀ v, dictGet? kwargs OPTION_NOTES_keyword = some v → v.isFalsy = true →
      nt = []) := by
  intro kwargs rid dn de nt rest hpop
  constructor
  · intro ns hs
    unfold createRun createRunWith at hs
    simp only [hpop, prep_config_importer_keys] at hs
    cases h2 : prep_config (normalizeKwargs rest) WIN_DISTRIBUTOR_CONFIG_KEYS with
    | error e =>
      simp only [h2] at hs
      simp [sentData, Event.createNotes?] at hs
    | ok p =>
      obtain ⟨rest2, dcfg0⟩ := p
      simp only [h2] at hs
      simp only [sentData, List.findSome?, Event.createNotes?] at hs
      have hns : ns = dictSet nt REPO_NOTE_TYPE_KEY REPO_NOTE_WIN := by
        injection hs with h'
        exact h'.symm
      refine ⟨hns, ?_⟩
      rw [hns, dictGet?_dictSet]
      simp
  · intro v hv hf
    obtain ⟨v', hv', hnb⟩ := popCreateArgs_notes kwargs rid dn de nt rest hpop
    rw [hv] at hv'
    injection hv' with hv''
    subst hv''
    unfold notesBase at hnb
    rw [if_pos hf] at hnb
    injection hnb with h'
    exact h'.symm

/-- Witness for C8: a caller-supplied conflicting note value at the type
key is overwritten with the WIN marker. -/
theorem spec_C8_witness :
    sentData Event.createNotes? (createRun kwargsConflictNote) =
      some [("_repo-type", "win-repo")] ∧
    dictGet? ([("_repo-type", "win-repo")] : List (String × String)) REPO_NOTE_TYPE_KEY =
      some REPO_NOTE_WIN := by
  have h := spec_C8 kwargsConflictNote (Value.vStr "r1") Value.vNone Value.vNone
    [("_repo-type", "other")] [] rfl
  exact ⟨rfl, (h.1 [("_repo-type", "win-repo")] rfl).2⟩

theorem popUpdateArgs_eq (kwargs : Dict Value) (rid dn de nts : Value) (rest : Dict Value)
    (hpop : popUpdateArgs kwargs = some (rid, dn, de, nts, rest)) :
    nts = (dictGet? kwargs OPTION_NOTES_keyword).getD Value.vNone ∧
    rest = dictRemove (dictRemove (dictRemove (dictRemove kwargs
      OPTION_REPO_ID_keyword) OPTION_DESCRIPTION_keyword) OPTION_NAME_keyword)
      OPTION_NOTES_keyword := by
  unfold popUpdateArgs at hpop
  cases h1 : popRequired kwargs OPTION_REPO_ID_keyword with
  | none => rw [h1] at hpop; exact Option.noConfusion hpop
  | some p1 =>
    obtain ⟨rid1, k1⟩ := p1
    obtain ⟨hg1, hk1⟩ := popRequired_eq kwargs _ rid1 k1 h1
    simp only [h1, popDefault] at hpop
    simp only [Option.some.injEq, Prod.mk.injEq] at hpop
    obtain ⟨h_rid, h_dn, h_de, h_nts, h_rest⟩ := hpop
    subst hk1
    constructor
    · rw [← h_nts,
        dictGet?_dictRemove_ne _ _ _ (by decide),
        dictGet?_dictRemove_ne _ _ _ (by decide),
        dictGet?_dictRemove_ne _ _ _ (by decide)]
    · exact h_rest.symm

/-- Claim C7: an update invoked without a notes argument passes notes to
the remote call as `None` (not an empty mapping), and no defaulting is
applied to the update configs: the configs sent are exactly the builder
outputs, and every key of the sent distributor config stems from a
user-supplied (non-`None`) CLI value. -/
theorem spec_C7 : ∀ (kwargs : Dict Value) (rid dn de nts : Value) (rest : Dict Value),
    (dictKeys kwargs).Nodup →
    popUpdateArgs kwargs = some (rid, dn, de, nts, rest) →
    (dictHas kwargs OPTION_NOTES_keyword = false →
      ∀ n, sentData Event.updateNotes? (updateRun kwargs) = some n → n = Value.vNone) ∧
    (∀ rest1 icfg rest2 dcfg,
      prep_config rest IMPORTER_CONFIG_KEYS = Except.ok (rest1, icfg) →
      prep_config rest1 WIN_DISTRIBUTOR_CONFIG_KEYS = Except.ok (rest2, dcfg) →
      sentData Event.updateConfigs? (updateRun kwargs) =
        some (icfg, [(TYPE_ID_DISTRIBUTOR_WIN, dcfg)]) ∧
      (∀ pk v, dictGet? dcfg pk = some v →
        ∃ ck v0, (pk, ck) ∈ WIN_DISTRIBUTOR_CONFIG_KEYS ∧
          dictGet? rest2 ck = some v0 ∧ v0 ≠ Value.vNone)) := by
  intro kwargs rid dn de nts rest hnd hpop
  obtain ⟨hnts, hrest⟩ := popUpdateArgs_eq kwargs rid dn de nts rest hpop
  constructor
  · intro hno n hs
    have hvnone : nts = Value.vNone := by
      rw [hnts, (dictHas_eq_false_iff kwargs _).mp hno]
      rfl
    unfold updateRun updateRunWith at hs
    simp only [hpop, prep_config_importer_keys] at hs
    cases h2 : prep_config (normalizeKwargs rest) WIN_DISTRIBUTOR_CONFIG_KEYS with
    | error e =>
      simp only [h2] at hs
      simp [sentData, Event.updateNotes?] at hs
    | ok p =>
      obtain ⟨rest2, dcfg⟩ := p
      simp only [h2] at hs
      simp only [sentData, List.findSome?, Event.updateNotes?] at hs
      injection hs with h'
      rw [← h', hvnone]
  · intro rest1 icfg rest2 dcfg h1 h2
    rw [prep_config_importer_keys rest] at h1
    simp only [Except.ok.injEq, Prod.mk.injEq] at h1
    obtain ⟨hrest1, hicfg⟩ := h1
    subst hrest1
    subst hicfg
    constructor
    · unfold updateRun updateRunWith
      simp only [hpop, prep_config_importer_keys, h2]
      simp [sentData, List.findSome?, Event.updateConfigs?]
    · have hndrest : (dictKeys rest).Nodup := by
        rw [hrest]
        exact nodup_dictKeys_dictRemove _ _ (nodup_dictKeys_dictRemove _ _
          (nodup_dictKeys_dictRemove _ _ (nodup_dictKeys_dictRemove _ _ hnd)))
      have hnd1 : (dictKeys (normalizeKwargs rest)).Nodup :=
        nodup_dictKeys_normalizeKwargs rest hndrest
      obtain ⟨hN2, hspec⟩ := prep_config_win_lookup (normalizeKwargs rest) rest2 dcfg hnd1 h2
      have hgen : ∀ ck v, removedLookup (suppliedValue rest2 ck) = some v →
          ∃ v0, dictGet? rest2 ck = some v0 ∧ v0 ≠ Value.vNone := by
        intro ck v hrl
        cases hv0 : dictGet? rest2 ck with
        | none =>
          unfold suppliedValue at hrl
          rw [hv0] at hrl
          simp [removedLookup] at hrl
        | some v0 =>
          refine ⟨v0, rfl, ?_⟩
          intro hveq
          subst hveq
          unfold suppliedValue at hrl
          rw [hv0] at hrl
          simp [removedLookup] at hrl
      intro pk v hlook
      rw [hspec pk] at hlook
      unfold winConfigSpec at hlook
      by_cases p1 : pk = "relative_url"
      · subst p1
        simp only [if_pos rfl] at hlook
        obtain ⟨v0, hv0, hne⟩ := hgen _ v hlook
        exact ⟨"relative_url", v0, by decide, hv0, hne⟩
      · by_cases p2 : pk = "http"
        · subst p2
          rw [if_neg p1, if_pos rfl] at hlook
          obtain ⟨v0, hv0, hne⟩ := hgen _ v hlook
          exact ⟨"serve_http", v0, by decide, hv0, hne⟩
        · by_cases p3 : pk = "https"
          · subst p3
            rw [if_neg p1, if_neg p2, if_pos rfl] at hlook
            obtain ⟨v0, hv0, hne⟩ := hgen _ v hlook
            exact ⟨"serve_https", v0, by decide, hv0, hne⟩
          · by_cases p4 : pk = "checksum_type"
            · subst p4
              rw [if_neg p1, if_neg p2, if_neg p3, if_pos rfl] at hlook
              obtain ⟨v0, hv0, hne⟩ := hgen _ v hlook
              exact ⟨"checksum_type", v0, by decide, hv0, hne⟩
            · by_cases p5 : pk = "skip"
              · subst p5
                rw [if_neg p1, if_neg p2, if_neg p3, if_neg p4, if_pos rfl] at hlook
                obtain ⟨v0, hv0, hne⟩ := hgen _ v hlook
                exact ⟨"skip", v0, by decide, hv0, hne⟩
              · rw [if_neg p1, if_neg p2, if_neg p3, if_neg p4, if_neg p5] at hlook
                exact Option.noConfusion hlook

/-- Witness for C7: the update run on arguments without a notes option
sends notes as `None` and only the user-supplied flag in the distributor
config. -/
theorem spec_C7_witness :
    sentData Event.updateNotes? (updateRun kwargsUpdateNoNote) = some Value.vNone ∧
    sentData Event.updateConfigs? (updateRun kwargsUpdateNoNote) =
      some ([], [(TYPE_ID_DISTRIBUTOR_WIN, [("http", Value.vBool true)])]) := by
  have h := spec_C7 kwargsUpdateNoNote (Value.vStr "r1") Value.vNone Value.vNone Value.vNone
    [("serve_http", Value.vBool true)] (by decide) rfl
  refine ⟨rfl, ?_⟩
  exact (h.2 [("serve_http", Value.vBool true)] [] [("serve_http", Value.vBool true)]
    [("http", Value.vBool true)] rfl rfl).1

-- MORE_CLAIMS_MARKER

end PulpWin
